import Mathlib

/-!
Verification of the metrics-collection pipeline (`collect_metrics.py`).

Python strings are modelled as `List Char`; Python floats are modelled as
exact rationals (`ℚ`); a Python function that can raise an exception is
modelled as returning an `Option`.  The regex-based scans of the source are
embedded as explicit left-to-right scanners with the same leftmost,
non-overlapping match semantics as `re.findall`, specialised to the concrete
patterns appearing in the source (each such specialisation is justified in a
comment at its definition).  Character classes are modelled at their ASCII
meaning.
-/

namespace CollectMetrics

/-- A Python string, modelled as its list of characters. -/
abbrev Str := List Char

/-- Python `str.lower()` (ASCII model). -/
def strLower (s : Str) : Str := s.map Char.toLower

/-- The whitespace class: Python `str.strip()` / `str.split()` whitespace and
the regex class `\s`, at its ASCII meaning
(space, tab, newline, carriage return, vertical tab, form feed). -/
def isPySpace (c : Char) : Bool :=
  c == ' ' || c == '\t' || c == '\n' || c == '\r' || c == Char.ofNat 11 || c == Char.ofNat 12

/-- The regex word class `\w` at its ASCII meaning: letters, digits, underscore. -/
def isWordChar (c : Char) : Bool := c.isAlphanum || c == '_'

/-- Test `isPre needle hay`: `needle` is a prefix of `hay`. -/
def isPre : Str → Str → Bool
  | [], _ => true
  | _ :: _, [] => false
  | a :: ns, b :: hs => a == b && isPre ns hs

/-- Python substring membership: `needle in hay`. -/
def pyIn (needle : Str) : Str → Bool
  | [] => isPre needle []
  | c :: rest => isPre needle (c :: rest) || pyIn needle rest

/-- Python `code.split('\n')` (always returns at least one piece). -/
def splitOnNl : Str → List Str
  | [] => [[]]
  | c :: rest =>
    if c == '\n' then [] :: splitOnNl rest
    else
      match splitOnNl rest with
      | [] => [[c]]
      | w :: ws => (c :: w) :: ws

/-- Python `x.split('\n-')`: split on leftmost, non-overlapping occurrences
of the two-character separator. -/
def splitNlDash : Str → List Str
  | [] => [[]]
  | '\n' :: '-' :: rest => [] :: splitNlDash rest
  | c :: rest =>
    match splitNlDash rest with
    | [] => [[c]]
    | w :: ws => (c :: w) :: ws

/-- Split at every whitespace character (helper for Python `str.split()`). -/
def splitSpaces : Str → List Str
  | [] => [[]]
  | c :: rest =>
    if isPySpace c then [] :: splitSpaces rest
    else
      match splitSpaces rest with
      | [] => [[c]]
      | w :: ws => (c :: w) :: ws

/-- Python `criterion.split()` with no argument: split on whitespace runs,
discarding empty pieces. -/
def pyWords (s : Str) : List Str := (splitSpaces s).filter (fun w => !w.isEmpty)

/-- Strip leading whitespace. -/
def lstrip (s : Str) : Str := s.dropWhile isPySpace

/-- Strip trailing whitespace. -/
def rstrip (s : Str) : Str := (s.reverse.dropWhile isPySpace).reverse

/-- Python `line.strip()` (ASCII whitespace model). -/
def pyStrip (s : Str) : Str := rstrip (lstrip s)

/-- Python `'\n'.join(blocks)`. -/
def joinNl (blocks : List Str) : Str := List.intercalate ['\n'] blocks

/-- Model of `len(re.findall(pattern, s))` for a pattern embedded as a matcher
`m : Str → Option Nat` that, at a given suffix, returns the length of the
match starting there (if any): scan left to right, count leftmost
non-overlapping matches, resuming after each match.  Every matcher used in
this development returns a length of at least 1, so `max 1 k` equals `k`
there; it is written only to certify termination. -/
def countMatchesAux (m : Str → Option Nat) : Nat → Str → Nat
  | _, [] => 0
  | 0, _ :: _ => 0
  | fuel + 1, c :: rest =>
    match m (c :: rest) with
    | some k => 1 + countMatchesAux m fuel ((c :: rest).drop (max 1 k))
    | none => countMatchesAux m fuel rest

/-- The fuel is the length of the text: each step of the scan consumes at
least one character and one unit of fuel, so with this initial fuel the
`0, _ :: _` case of `countMatchesAux` is never reached and the fuel is
merely a structural termination certificate. -/
def countMatches (m : Str → Option Nat) (s : Str) : Nat := countMatchesAux m s.length s

/-- Model of `re.findall` collecting the captured group of each match: like
`countMatchesAux` but the matcher also returns the captured group text. -/
def collectMatchesAux (m : Str → Option (Str × Nat)) : Nat → Str → List Str
  | _, [] => []
  | 0, _ :: _ => []
  | fuel + 1, c :: rest =>
    match m (c :: rest) with
    | some (b, k) => b :: collectMatchesAux m fuel ((c :: rest).drop (max 1 k))
    | none => collectMatchesAux m fuel rest

/-- Fuelled like `countMatches`. -/
def collectMatches (m : Str → Option (Str × Nat)) (s : Str) : List Str :=
  collectMatchesAux m s.length s

/-- Matcher for `(\s+)(if|for|while)`: a maximal whitespace run (the greedy
`\s+` cannot backtrack to a shorter run, since no keyword starts with a
whitespace character) followed by one of the literal keywords (the
alternatives start with distinct characters, so at most one applies). -/
def nestedAt (s : Str) : Option Nat :=
  match s with
  | [] => none
  | c :: _ =>
    if isPySpace c then
      let w := s.takeWhile isPySpace
      let r := s.drop w.length
      if isPre "if".data r then some (w.length + 2)
      else if isPre "for".data r then some (w.length + 3)
      else if isPre "while".data r then some (w.length + 5)
      else none
    else none

/-- Matcher for a literal keyword followed by `\s+\w+`: the greedy `\s+`
cannot backtrack (a word character is never whitespace), and the greedy
`\w+` takes the maximal word-character run. -/
def kwThenIdentAt (kw : Str) (s : Str) : Option Nat :=
  if isPre kw s then
    let r := s.drop kw.length
    let w := r.takeWhile isPySpace
    if w.isEmpty then none
    else
      let r2 := r.drop w.length
      let ident := r2.takeWhile isWordChar
      if ident.isEmpty then none else some (kw.length + w.length + ident.length)
  else none

/-- Matcher for `(def|func)\s+\w+` ("def" and "func" start with distinct
characters, so the ordered alternation is a plain first-match choice). -/
def funcDefAt (s : Str) : Option Nat :=
  (kwThenIdentAt "def".data s).orElse (fun _ => kwThenIdentAt "func".data s)

/-- Matcher for `class\s+\w+`. -/
def classAt (s : Str) : Option Nat := kwThenIdentAt "class".data s

/-- The triple double-quote marker. -/
def tripleQuote : Str := ['"', '"', '"']

/-- The triple single-quote marker (written via character codes). -/
def tripleApos : Str := [Char.ofNat 39, Char.ofNat 39, Char.ofNat 39]

/-- Matcher for `(#|"""|\'\'\')`: the alternatives start with distinct
characters. -/
def docMarkAt (s : Str) : Option Nat :=
  if isPre ['#'] s then some 1
  else if isPre tripleQuote s then some 3
  else if isPre tripleApos s then some 3
  else none

/-- Distance to the next `"""` (the lazy `[\s\S]*?` stops at the earliest
closing marker). -/
def findCloseTq : Str → Option Nat
  | [] => none
  | c :: rest => if isPre tripleQuote (c :: rest) then some 0 else (findCloseTq rest).map (· + 1)

/-- Matcher for `"""[\s\S]*?"""`. -/
def tqDocAt (s : Str) : Option Nat :=
  if isPre tripleQuote s then (findCloseTq (s.drop 3)).map (fun b => 3 + b + 3) else none

/-- After the `:` of `class.*?:`, match `\s*"""[\s\S]*?"""`: the greedy `\s*`
cannot backtrack (a quote is never whitespace). -/
def afterColonTq (s : Str) : Option Nat :=
  let w := s.takeWhile isPySpace
  (tqDocAt (s.drop w.length)).map (fun m => w.length + m)

/-- The `.*?:\s*"""[\s\S]*?"""` tail of the class-docstring pattern: the lazy
`.*?` consumes the fewest (non-newline) characters for which a `:` followed
by the rest of the pattern matches, trying candidate colons left to right. -/
def classDocTail : Str → Option Nat
  | [] => none
  | c :: rest =>
    match (if c == ':' then afterColonTq rest else none) with
    | some m => some (1 + m)
    | none => if c == '\n' then none else (classDocTail rest).map (1 + ·)

/-- Matcher for `class.*?:\s*"""[\s\S]*?"""`. -/
def classDocAt (s : Str) : Option Nat :=
  if isPre "class".data s then (classDocTail (s.drop 5)).map (5 + ·) else none

/-- One line matches `re.match(r'^\s*(def|class|if|for|while)', line)`: after
the leading whitespace (the greedy `\s*` cannot backtrack, since no keyword
starts with a whitespace character) one of the literal keywords follows. -/
def properSpacingLine (line : Str) : Bool :=
  let t := line.dropWhile isPySpace
  isPre "def".data t || isPre "class".data t || isPre "if".data t ||
    isPre "for".data t || isPre "while".data t

/-- The dictionary returned by `evaluate_code_quality`. -/
structure CodeQuality where
  complexity : ℚ
  readability : ℚ
  documentation : ℚ
deriving DecidableEq

/-- The function `evaluate_code_quality` (collect_metrics.py lines 25-66). -/
def evaluateCodeQuality (code : Str) : CodeQuality :=
  let nested_depth := countMatches nestedAt code
  let function_count := countMatches funcDefAt code
  let class_count := countMatches classAt code
  let complexity_score : ℚ :=
    ((nested_depth : ℚ) * 0.4 + (function_count : ℚ) * 0.3 + (class_count : ℚ) * 0.3) / 10.0
  let lines := splitOnNl code
  let long_lines := lines.countP (fun line => 80 < (pyStrip line).length)
  let empty_lines := lines.countP (fun line => (pyStrip line).isEmpty)
  let proper_spacing := lines.countP properSpacingLine
  let readability_score : ℚ :=
    (1.0 - (long_lines : ℚ) / ((max 1 lines.length : ℕ) : ℚ)) * 0.4 +
    ((empty_lines : ℚ) / ((max 1 lines.length : ℕ) : ℚ)) * 0.3 +
    ((proper_spacing : ℚ) / ((max 1 lines.length : ℕ) : ℚ)) * 0.3
  let doc_lines := countMatches docMarkAt code
  let function_docs := countMatches tqDocAt code
  let class_docs := countMatches classDocAt code
  let documentation_score : ℚ :=
    ((doc_lines : ℚ) / ((max 1 lines.length : ℕ) : ℚ)) * 0.4 +
    ((function_docs : ℚ) / ((max 1 function_count : ℕ) : ℚ)) * 0.3 +
    ((class_docs : ℚ) / ((max 1 class_count : ℕ) : ℚ)) * 0.3
  ⟨min 1.0 complexity_score, readability_score, min 1.0 documentation_score⟩

/-- The backtick character (written via its character code). -/
def backtick : Char := Char.ofNat 96

/-- The triple-backtick fence marker. -/
def tripleTicks : Str := [backtick, backtick, backtick]

/-- Distance to the next fence marker (lazy `(.*?)` body, DOTALL). -/
def findCloseTicks : Str → Option Nat
  | [] => none
  | c :: rest =>
    if isPre tripleTicks (c :: rest) then some 0 else (findCloseTicks rest).map (· + 1)

/-- Matcher for a fenced code block (pattern with three backticks, then
`[\w]*`, then a newline, then the lazily captured body `(.*?)` under DOTALL,
then three backticks); returns the captured body and the match length.  The
greedy `[\w]*` tag cannot backtrack, since a newline is not a word
character. -/
def codeBlockAt (s : Str) : Option (Str × Nat) :=
  if isPre tripleTicks s then
    let r := s.drop 3
    let tag := r.takeWhile isWordChar
    match r.drop tag.length with
    | '\n' :: body =>
      match findCloseTicks body with
      | some b => some (body.take b, 3 + tag.length + 1 + b + 3)
      | none => none
    | _ => none
  else none

/-- Model of `re.findall` with the fenced-code-block pattern
(collect_metrics.py line 104). -/
def extractCodeBlocks (response : Str) : List Str := collectMatches codeBlockAt response

/-- The literal text whose presence the success-criteria regex requires:
the heading, a newline and the first bullet dash. -/
def successCriteriaMarker : Str := "Success Criteria:\n-".data

/-- The group captured by the lazy `(.*?)(?:\n\n|$)` tail (DOTALL): the body
extends to the earliest blank line, or to the end of the string (`$` also
matches just before a final newline). -/
def lazyBody : Str → Str
  | [] => []
  | ['\n'] => []
  | '\n' :: '\n' :: _ => []
  | c :: rest => c :: lazyBody rest

/-- Return the suffix following the first (leftmost) occurrence of `needle`,
if any. -/
def findAfterLit (needle : Str) : Str → Option Str
  | [] => if isPre needle [] then some [] else none
  | c :: rest =>
    if isPre needle (c :: rest) then some ((c :: rest).drop needle.length)
    else findAfterLit needle rest

/-- Lines 69-72 of collect_metrics.py: the success-criteria extraction.
`re.findall(r'Success Criteria:\n-(.*?)(?:\n\n|$)', content, re.DOTALL)`
has a match exactly where the literal marker occurs (the lazy tail always
succeeds, at the latest at the end of the string); taking `[0]` of an empty
findall raises `IndexError`, modelled as `none`. -/
def extractCriteria (content : Str) : Option (List Str) :=
  (findAfterLit successCriteriaMarker content).map fun afterMarker =>
    ((splitNlDash (lazyBody afterMarker)).map pyStrip).filter (fun c => !c.isEmpty)

/-- The six completion indicators (collect_metrics.py lines 74-77). -/
def completionIndicators : List Str :=
  ["completed".data, "finished".data, "done".data,
   "successfully".data, "implemented".data, "fixed".data]

/-- Lines 74-91 of collect_metrics.py: the scoring loops of
`evaluate_task_completion`, taking the already-extracted criteria list. -/
def taskCompletionScore (response : Str) (criteria_list : List Str) : ℚ × List Str :=
  let score0 : ℚ :=
    completionIndicators.foldl
      (fun score indicator =>
        if pyIn indicator (strLower response) then score + 0.2 else score) 0.0
  let result :=
    criteria_list.foldl
      (fun acc criterion =>
        if (pyWords criterion).any (fun part => pyIn (strLower part) (strLower response))
        then (acc.1 + 0.3, acc.2 ++ [criterion]) else acc)
      (score0, ([] : List Str))
  (min 1.0 result.1, result.2)

/-- The function `evaluate_task_completion` (collect_metrics.py lines 68-91): extraction
from the task-file content, then scoring; `none` models the uncaught
`IndexError` on a missing section. -/
def evaluateTaskCompletion (response content : Str) : Option (ℚ × List Str) :=
  (extractCriteria content).map (taskCompletionScore response)

/-- Coherence marker: `'# Thoughts' in response` (case-sensitive). -/
def hasThoughts (response : Str) : Bool := pyIn "# Thoughts".data response

/-- Coherence marker: `any(f'step {i}' in response.lower() for i in range(10))`. -/
def hasSteps (response : Str) : Bool :=
  (List.range 10).any (fun i => pyIn ("step ".data ++ (toString i).data) (strLower response))

/-- Coherence marker: any of `because`, `therefore`, `since` in the lowered
response. -/
def hasExplanation (response : Str) : Bool :=
  ["because".data, "therefore".data, "since".data].any
    (fun k => pyIn k (strLower response))

/-- Coherence marker: any of `finally`, `in conclusion`, `to summarize` in
the lowered response. -/
def hasConclusion (response : Str) : Bool :=
  ["finally".data, "in conclusion".data, "to summarize".data].any
    (fun k => pyIn k (strLower response))

/-- The `sum(1 for v in structure_elements.values() if v)` contribution of one
marker. -/
def boolIndicator (b : Bool) : ℚ := if b then 1 else 0

/-- The function `evaluate_response_coherence` (collect_metrics.py lines 93-101): the
number of true markers divided by the number of markers (4). -/
def evaluateResponseCoherence (response : Str) : ℚ :=
  (boolIndicator (hasThoughts response) + boolIndicator (hasSteps response) +
   boolIndicator (hasExplanation response) + boolIndicator (hasConclusion response)) / 4

/-- The number of true coherence markers. -/
def coherenceMarkerCount (response : Str) : ℕ :=
  (if hasThoughts response then 1 else 0) + (if hasSteps response then 1 else 0) +
  (if hasExplanation response then 1 else 0) + (if hasConclusion response then 1 else 0)

/-- The `TaskMetrics` dataclass (collect_metrics.py lines 15-23). -/
structure TaskMetrics where
  complexity : ℚ
  readability : ℚ
  documentation : ℚ
  task_completion : ℚ
  response_coherence : ℚ
  time_to_completion : ℚ
  success_criteria_met : List Str
deriving DecidableEq

/-- Line 107 of collect_metrics.py:
`evaluate_code_quality(code) if code else {'complexity': 0.0, 'readability': 0.0, 'documentation': 0.0}`. -/
def codeQualityStep (code : Str) : CodeQuality :=
  if !code.isEmpty then evaluateCodeQuality code else ⟨0.0, 0.0, 0.0⟩

/-- The function `evaluate_response` (collect_metrics.py lines 103-118).  The wall-clock
reading `time.time()` is passed in as the parameter `now`; the task file's
text is passed as `content`; the uncaught failure of
`evaluate_task_completion` propagates as `none`. -/
def evaluateResponse (response content : Str) (start_time now : ℚ) : Option TaskMetrics :=
  let code_blocks := extractCodeBlocks response
  let code := if !code_blocks.isEmpty then joinNl code_blocks else []
  let code_quality := codeQualityStep code
  match extractCriteria content with
  | none => none
  | some criteria_list =>
    let tc := taskCompletionScore response criteria_list
    some { complexity := code_quality.complexity
           readability := code_quality.readability
           documentation := code_quality.documentation
           task_completion := tc.1
           response_coherence := evaluateResponseCoherence response
           time_to_completion := now - start_time
           success_criteria_met := tc.2 }

/-- A record with the time field zeroed: the part of a `TaskMetrics` record
that does not depend on the wall clock. -/
def eraseTime (tm : TaskMetrics) : TaskMetrics := { tm with time_to_completion := 0 }

/-- A top-level value stored in the dict passed to `json.dump` by
`collect_metrics` (line 134). -/
inductive PyLeaf where
  | pyStr (s : Str)
  | pyNum (q : ℚ)
  | dataclassTaskMetrics (tm : TaskMetrics)

/-- Modelled from the spec (and the documented behaviour of the Python
`json` standard library, which is not part of this repository): `json.dump`
serialises dicts, lists, strings, numbers, booleans and `None`; any other
object - in particular a dataclass instance such as `TaskMetrics` - makes it
raise `TypeError`, so nothing is written. -/
def leafSerializable : PyLeaf → Bool
  | .pyStr _ => true
  | .pyNum _ => true
  | .dataclassTaskMetrics _ => false

/-- The dict built by `collect_metrics` (line 131): each record key is mapped
to the `TaskMetrics` dataclass instance itself. -/
def reportDict (records : List (Str × TaskMetrics)) : List (Str × PyLeaf) :=
  records.map (fun r => (r.1, .dataclassTaskMetrics r.2))

/-- Modelled from the spec: `json.dump` succeeds on a dict exactly when every value is
serialisable. -/
def reportSerializable (entries : List (Str × PyLeaf)) : Bool :=
  entries.all (fun e => leafSerializable e.2)

/-! ## Helper lemmas -/

theorem isPre_append {n h v : Str} (hp : isPre n h = true) : isPre n (h ++ v) = true := by
  induction n generalizing h with
  | nil => rfl
  | cons a ns ih =>
    cases h with
    | nil => simp [isPre] at hp
    | cons b hs =>
      simp only [isPre, Bool.and_eq_true, beq_iff_eq] at hp
      simp only [List.cons_append, isPre, Bool.and_eq_true, beq_iff_eq]
      exact ⟨hp.1, ih hp.2⟩

theorem pyIn_nil_needle (h : Str) : pyIn [] h = true := by
  cases h <;> simp [pyIn, isPre]

theorem pyIn_append_right {n s : Str} (v : Str) (hp : pyIn n s = true) :
    pyIn n (s ++ v) = true := by
  induction s with
  | nil =>
    have hn : n = [] := by
      cases n with
      | nil => rfl
      | cons a ns => simp [pyIn, isPre] at hp
    subst hn
    exact pyIn_nil_needle v
  | cons c rest ih =>
    simp only [pyIn, Bool.or_eq_true] at hp
    rcases hp with hp | hp
    · simp only [List.cons_append, pyIn, Bool.or_eq_true]
      exact Or.inl (by simpa using isPre_append (v := v) hp)
    · simp only [List.cons_append, pyIn, Bool.or_eq_true]
      exact Or.inr (ih hp)

theorem pyIn_append_left {n s : Str} (u : Str) (hp : pyIn n s = true) :
    pyIn n (u ++ s) = true := by
  induction u with
  | nil => simpa using hp
  | cons c u' ih =>
    simp only [List.cons_append, pyIn, Bool.or_eq_true]
    exact Or.inr ih

theorem pyIn_extend {n s : Str} (u v : Str) (hp : pyIn n s = true) :
    pyIn n (u ++ s ++ v) = true := by
  rw [List.append_assoc]
  exact pyIn_append_left u (pyIn_append_right v hp)

theorem strLower_append (a b : Str) : strLower (a ++ b) = strLower a ++ strLower b :=
  List.map_append _ a b

theorem pyIn_strLower_extend {k s : Str} (u v : Str) (hp : pyIn k (strLower s) = true) :
    pyIn k (strLower (u ++ s ++ v)) = true := by
  rw [strLower_append, strLower_append]
  exact pyIn_extend _ _ hp

theorem findAfterLit_none_iff (n s : Str) :
    findAfterLit n s = none ↔ pyIn n s = false := by
  induction s with
  | nil =>
    simp only [findAfterLit, pyIn]
    cases isPre n [] <;> simp
  | cons c rest ih =>
    simp only [findAfterLit, pyIn]
    cases isPre n (c :: rest) <;> simp [ih]

/-! ## C3: failure of the task-completion scorer -/

/-- C3: the Task-Completion Scorer fails (the modelled `MalformedTaskSpec`,
i.e. the uncaught `IndexError` of line 72) exactly when the task document
does not contain a "Success Criteria:" heading directly followed by a
bullet line (the literal `Success Criteria:\n-`); and that failure
propagates unchanged through the Response Evaluator. -/
theorem task_completion_failure_iff_missing_section
    (response content : Str) (start_time now : ℚ) :
    (extractCriteria content = none ↔ pyIn successCriteriaMarker content = false) ∧
    (evaluateResponse response content start_time now = none ↔
      extractCriteria content = none) := by
  constructor
  · rw [← findAfterLit_none_iff]
    simp [extractCriteria]
  · cases hc : extractCriteria content <;> simp [evaluateResponse, hc]

/-! ## C5: empty-code bypass -/

/-- C5: on the empty code text the code-quality step (line 107) bypasses the
three sub-metric computations of `evaluate_code_quality` and returns all
three scores as 0. -/
theorem empty_code_bypass_zero : codeQualityStep [] = ⟨0, 0, 0⟩ := by
  norm_num [codeQualityStep]

/-! ## C6: concrete task-completion score -/

/-- C6: on the given response and the criteria list
`["add tests", "update docs"]`, the scoring loops return score exactly 0.6
(indicators `successfully`, `completed`, `done` at 0.2 each, no criterion
token matching) and an empty met-criteria list. -/
theorem task_completion_concrete_example :
    taskCompletionScore
      "I have successfully completed the task. # Thoughts: because it works, finally done.".data
      ["add tests".data, "update docs".data] = (0.6, []) := by
  simp +decide only [taskCompletionScore, completionIndicators, List.foldl]
  norm_num [min_def]

/-! ## C7: coherence quantisation -/

/-- C7: for every response, the coherence score equals the number of true
markers among the four structural markers divided by 4, hence is one of
0, 0.25, 0.5, 0.75, 1. -/
theorem coherence_quantized (response : Str) :
    evaluateResponseCoherence response = (coherenceMarkerCount response : ℚ) / 4 ∧
    (evaluateResponseCoherence response = 0 ∨ evaluateResponseCoherence response = 1/4 ∨
     evaluateResponseCoherence response = 1/2 ∨ evaluateResponseCoherence response = 3/4 ∨
     evaluateResponseCoherence response = 1) := by
  cases h1 : hasThoughts response <;> cases h2 : hasSteps response <;>
    cases h3 : hasExplanation response <;> cases h4 : hasConclusion response <;>
    simp only [evaluateResponseCoherence, coherenceMarkerCount, boolIndicator,
      h1, h2, h3, h4] <;> norm_num

/-! ## C8: determinism apart from the wall clock -/

/-- C8: two evaluations of the same response, task content and start
timestamp produce records that agree on every field except possibly
`time_to_completion`. -/
theorem evaluation_deterministic_except_time
    (response content : Str) (start_time now1 now2 : ℚ) :
    (evaluateResponse response content start_time now1).map eraseTime =
    (evaluateResponse response content start_time now2).map eraseTime := by
  cases hc : extractCriteria content <;> simp [evaluateResponse, hc, eraseTime]

/-! ## C9: readability bounds -/

theorem dropWhile_head_false {α} {p : α → Bool} {l : List α} {c : α} {r : List α}
    (h : l.dropWhile p = c :: r) : p c = false := by
  induction l with
  | nil => simp [List.dropWhile] at h
  | cons a t ih =>
    rw [List.dropWhile_cons] at h
    by_cases hp : p a = true
    · rw [if_pos hp] at h
      exact ih h
    · rw [if_neg hp] at h
      cases h
      simpa using hp

theorem pyStrip_nil_lstrip {l : Str} (h : pyStrip l = []) :
    l.dropWhile isPySpace = [] := by
  have hall : ∀ c ∈ l.dropWhile isPySpace, isPySpace c = true := by
    unfold pyStrip rstrip lstrip at h
    rw [List.reverse_eq_nil_iff, List.dropWhile_eq_nil_iff] at h
    intro c hc
    exact h c (List.mem_reverse.mpr hc)
  cases hh : l.dropWhile isPySpace with
  | nil => rfl
  | cons c r =>
    have hfalse := dropWhile_head_false hh
    have htrue : isPySpace c = true := hall c (by rw [hh]; exact List.mem_cons_self c r)
    rw [htrue] at hfalse
    cases hfalse

theorem properSpacing_false_of_strip_nil {l : Str} (h : (pyStrip l).isEmpty = true) :
    properSpacingLine l = false := by
  have h0 : pyStrip l = [] := by simpa using h
  have h1 := pyStrip_nil_lstrip h0
  simp only [properSpacingLine]
  rw [h1]
  decide

theorem countP_pair_le_length {α} (p q : α → Bool) (l : List α)
    (hpq : ∀ a, p a = true → q a = false) :
    l.countP p + l.countP q ≤ l.length := by
  induction l with
  | nil => simp
  | cons a t ih =>
    simp only [List.countP_cons, List.length_cons]
    cases hp : p a
    · cases hq : q a <;> simp <;> omega
    · have hq := hpq a hp
      simp [hq]
      omega

theorem readability_aux (lq e p t : ℚ) (ht : 1 ≤ t) (hl0 : 0 ≤ lq) (he0 : 0 ≤ e)
    (hp0 : 0 ≤ p) (hl : lq ≤ t) (hep : e + p ≤ t) :
    0 ≤ (1.0 - lq / t) * 0.4 + e / t * 0.3 + p / t * 0.3 ∧
    (1.0 - lq / t) * 0.4 + e / t * 0.3 + p / t * 0.3 ≤ 7/10 := by
  have ht0 : 0 < t := by linarith
  have h1 : lq / t ≤ 1 := (div_le_one ht0).mpr hl
  have h2 : 0 ≤ lq / t := div_nonneg hl0 ht0.le
  have h3 : e / t + p / t ≤ 1 := by
    rw [div_add_div_same]
    exact (div_le_one ht0).mpr hep
  have h4 : 0 ≤ e / t := div_nonneg he0 ht0.le
  have h5 : 0 ≤ p / t := div_nonneg hp0 ht0.le
  norm_num
  constructor <;> nlinarith [h1, h2, h3, h4, h5]

/-- C9: for every input code text the readability score of the Code-Quality
Scorer lies in the interval [0, 0.7]: the empty-line and proper-spacing
line sets are disjoint and the long-line count is at most the line count,
and no other clamp is involved. -/
theorem readability_bounded (code : Str) :
    0 ≤ (evaluateCodeQuality code).readability ∧
    (evaluateCodeQuality code).readability ≤ 7/10 := by
  unfold evaluateCodeQuality
  dsimp only
  refine readability_aux _ _ _ _ ?_ ?_ ?_ ?_ ?_ ?_
  · exact_mod_cast le_max_left 1 (splitOnNl code).length
  · exact Nat.cast_nonneg _
  · exact Nat.cast_nonneg _
  · exact Nat.cast_nonneg _
  · exact_mod_cast le_trans (List.countP_le_length _) (le_max_right 1 _)
  · exact_mod_cast le_trans
      (countP_pair_le_length _ _ _ (fun line h => properSpacing_false_of_strip_nil h))
      (le_max_right 1 _)

/-! ## C1: clamped metrics -/

theorem clamp01 {x : ℚ} (hx : 0 ≤ x) : 0 ≤ min 1.0 x ∧ min 1.0 x ≤ 1 :=
  ⟨le_min (by norm_num) hx, le_trans (min_le_left _ _) (by norm_num)⟩

theorem evaluateCodeQuality_complexity_mem (code : Str) :
    0 ≤ (evaluateCodeQuality code).complexity ∧ (evaluateCodeQuality code).complexity ≤ 1 := by
  unfold evaluateCodeQuality
  dsimp only
  exact clamp01 (by positivity)

theorem evaluateCodeQuality_documentation_mem (code : Str) :
    0 ≤ (evaluateCodeQuality code).documentation ∧
    (evaluateCodeQuality code).documentation ≤ 1 := by
  unfold evaluateCodeQuality
  dsimp only
  exact clamp01 (by positivity)

theorem codeQualityStep_complexity_mem (code : Str) :
    0 ≤ (codeQualityStep code).complexity ∧ (codeQualityStep code).complexity ≤ 1 := by
  unfold codeQualityStep
  split
  · exact evaluateCodeQuality_complexity_mem code
  · constructor <;> norm_num

theorem codeQualityStep_documentation_mem (code : Str) :
    0 ≤ (codeQualityStep code).documentation ∧ (codeQualityStep code).documentation ≤ 1 := by
  unfold codeQualityStep
  split
  · exact evaluateCodeQuality_documentation_mem code
  · constructor <;> norm_num

theorem foldl_if_add_le {α : Type} (p : α → Bool) (c : ℚ) (hc : 0 ≤ c) :
    ∀ (l : List α) (init : ℚ),
      init ≤ l.foldl (fun sc a => if p a then sc + c else sc) init := by
  intro l
  induction l with
  | nil => intro init; simp
  | cons a t ih =>
    intro init
    simp only [List.foldl_cons]
    cases hp : p a
    · simpa [hp] using ih init
    · have h2 := ih (init + c)
      simp only [hp, if_pos]
      linarith

theorem foldl_pair_fst_le (P : Str → Bool) (c : ℚ) (hc : 0 ≤ c) :
    ∀ (l : List Str) (init : ℚ × List Str),
      init.1 ≤ (l.foldl (fun acc criterion =>
        if P criterion then (acc.1 + c, acc.2 ++ [criterion]) else acc) init).1 := by
  intro l
  induction l with
  | nil => intro init; simp
  | cons a t ih =>
    intro init
    simp only [List.foldl_cons]
    cases hp : P a
    · simpa [hp] using ih init
    · have h2 := ih (init.1 + c, init.2 ++ [a])
      simp only [hp, if_pos]
      calc init.1 ≤ init.1 + c := by linarith
        _ ≤ (List.foldl (fun acc criterion =>
              if P criterion then (acc.1 + c, acc.2 ++ [criterion]) else acc)
              (init.1 + c, init.2 ++ [a]) t).1 := by
            simpa using h2
        _ = _ := by rfl

theorem taskCompletionScore_fst_mem (response : Str) (criteria_list : List Str) :
    0 ≤ (taskCompletionScore response criteria_list).1 ∧
    (taskCompletionScore response criteria_list).1 ≤ 1 := by
  unfold taskCompletionScore
  dsimp only
  apply clamp01
  have h1 := foldl_if_add_le (fun indicator => pyIn indicator (strLower response)) 0.2
    (by norm_num) completionIndicators 0.0
  have h2 := foldl_pair_fst_le
    (fun criterion => (pyWords criterion).any fun part => pyIn (strLower part) (strLower response))
    0.3 (by norm_num) criteria_list
    (completionIndicators.foldl
      (fun score indicator =>
        if pyIn indicator (strLower response) then score + 0.2 else score) 0.0, [])
  have h0 : (0 : ℚ) ≤ 0.0 := by norm_num
  exact le_trans h0 (le_trans h1 h2)

/-- C1: whenever the Response Evaluator produces a record, its `complexity`,
`documentation` and `task_completion` fields lie in [0, 1] (each is a
`min 1.0` of a sum of non-negative contributions). -/
theorem metrics_clamped_unit_interval (response content : Str) (start_time now : ℚ)
    (tm : TaskMetrics) (h : evaluateResponse response content start_time now = some tm) :
    (0 ≤ tm.complexity ∧ tm.complexity ≤ 1) ∧
    (0 ≤ tm.documentation ∧ tm.documentation ≤ 1) ∧
    (0 ≤ tm.task_completion ∧ tm.task_completion ≤ 1) := by
  revert h
  unfold evaluateResponse
  cases hc : extractCriteria content
  · intro h
    exact Option.noConfusion h
  · intro h
    dsimp only at h
    rw [Option.some.injEq] at h
    subst h
    exact ⟨codeQualityStep_complexity_mem _, codeQualityStep_documentation_mem _,
      taskCompletionScore_fst_mem _ _⟩

theorem codeQualityStep_nil : codeQualityStep [] = ⟨0, 0, 0⟩ := by
  norm_num [codeQualityStep]

theorem taskCompletionScore_nil : taskCompletionScore [] [] = (0, []) := by
  simp +decide only [taskCompletionScore, completionIndicators, List.foldl]
  norm_num [min_def]

theorem coherence_nil : evaluateResponseCoherence [] = 0 := by
  simp +decide only [evaluateResponseCoherence, hasThoughts, hasSteps, hasExplanation,
    hasConclusion, boolIndicator]
  norm_num

theorem evaluateResponse_nil_eval :
    evaluateResponse [] successCriteriaMarker 0 0 = some (TaskMetrics.mk 0 0 0 0 0 0 []) := by
  have hcrit : extractCriteria successCriteriaMarker = some [] := by decide
  have hblocks : extractCodeBlocks [] = [] := by decide
  simp only [evaluateResponse, hcrit, hblocks]
  simp [codeQualityStep_nil, taskCompletionScore_nil, coherence_nil]

/-- C1 witness: a concrete run of the pipeline whose record satisfies the
bounds. -/
theorem metrics_clamped_unit_interval_check :
    evaluateResponse [] successCriteriaMarker 0 0 = some (TaskMetrics.mk 0 0 0 0 0 0 []) ∧
    ((0 ≤ (TaskMetrics.mk 0 0 0 0 0 0 ([] : List Str)).complexity ∧
        (TaskMetrics.mk 0 0 0 0 0 0 ([] : List Str)).complexity ≤ 1) ∧
     (0 ≤ (TaskMetrics.mk 0 0 0 0 0 0 ([] : List Str)).documentation ∧
        (TaskMetrics.mk 0 0 0 0 0 0 ([] : List Str)).documentation ≤ 1) ∧
     (0 ≤ (TaskMetrics.mk 0 0 0 0 0 0 ([] : List Str)).task_completion ∧
        (TaskMetrics.mk 0 0 0 0 0 0 ([] : List Str)).task_completion ≤ 1)) :=
  ⟨evaluateResponse_nil_eval,
    metrics_clamped_unit_interval [] successCriteriaMarker 0 0 _ evaluateResponse_nil_eval⟩

/-! ## C4: no fenced code block means zero code scores -/

/-- C4: if the Code-Block Extractor finds no fenced block in the response,
the record's `complexity`, `readability` and `documentation` are all 0. -/
theorem no_code_blocks_zero_scores (response content : Str) (start_time now : ℚ)
    (tm : TaskMetrics) (hb : extractCodeBlocks response = [])
    (h : evaluateResponse response content start_time now = some tm) :
    tm.complexity = 0 ∧ tm.readability = 0 ∧ tm.documentation = 0 := by
  revert h
  unfold evaluateResponse
  rw [hb]
  cases hc : extractCriteria content
  · intro h
    exact Option.noConfusion h
  · intro h
    dsimp only at h
    rw [Option.some.injEq] at h
    subst h
    refine ⟨?_, ?_, ?_⟩ <;> simp [codeQualityStep_nil]

/-- C4 witness: a concrete response with no fenced block. -/
theorem no_code_blocks_zero_scores_check :
    extractCodeBlocks [] = [] ∧
    evaluateResponse [] successCriteriaMarker 0 0 = some (TaskMetrics.mk 0 0 0 0 0 0 []) ∧
    ((TaskMetrics.mk 0 0 0 0 0 0 ([] : List Str)).complexity = 0 ∧
     (TaskMetrics.mk 0 0 0 0 0 0 ([] : List Str)).readability = 0 ∧
     (TaskMetrics.mk 0 0 0 0 0 0 ([] : List Str)).documentation = 0) :=
  ⟨by decide, evaluateResponse_nil_eval,
    no_code_blocks_zero_scores [] successCriteriaMarker 0 0 _ (by decide)
      evaluateResponse_nil_eval⟩

/-! ## C10: coherence is monotone under string extension -/

theorem boolIndicator_mono {a b : Bool} (h : a = true → b = true) :
    boolIndicator a ≤ boolIndicator b := by
  cases a
  · cases b <;> norm_num [boolIndicator]
  · simp [boolIndicator, h rfl]

theorem hasThoughts_extend (u s v : Str) (h : hasThoughts s = true) :
    hasThoughts (u ++ s ++ v) = true := pyIn_extend u v h

theorem hasSteps_extend (u s v : Str) (h : hasSteps s = true) :
    hasSteps (u ++ s ++ v) = true := by
  simp only [hasSteps, List.any_eq_true] at h ⊢
  obtain ⟨i, hi, hin⟩ := h
  exact ⟨i, hi, pyIn_strLower_extend u v hin⟩

theorem hasExplanation_extend (u s v : Str) (h : hasExplanation s = true) :
    hasExplanation (u ++ s ++ v) = true := by
  simp only [hasExplanation, List.any_eq_true] at h ⊢
  obtain ⟨k, hk, hin⟩ := h
  exact ⟨k, hk, pyIn_strLower_extend u v hin⟩

theorem hasConclusion_extend (u s v : Str) (h : hasConclusion s = true) :
    hasConclusion (u ++ s ++ v) = true := by
  simp only [hasConclusion, List.any_eq_true] at h ⊢
  obtain ⟨k, hk, hin⟩ := h
  exact ⟨k, hk, pyIn_strLower_extend u v hin⟩

/-- C10: the coherence score never decreases when the response text is
embedded in a larger text, since each of the four markers is a substring
test. -/
theorem coherence_monotone_extension (u s v : Str) :
    evaluateResponseCoherence s ≤ evaluateResponseCoherence (u ++ s ++ v) := by
  unfold evaluateResponseCoherence
  have h1 := boolIndicator_mono (hasThoughts_extend u s v)
  have h2 := boolIndicator_mono (hasSteps_extend u s v)
  have h3 := boolIndicator_mono (hasExplanation_extend u s v)
  have h4 := boolIndicator_mono (hasConclusion_extend u s v)
  linarith

/-! ## C2: the report serialization -/

/-- C2 fails on the code: for every non-empty batch, the dict handed to
`json.dump` maps its keys to `TaskMetrics` dataclass instances, which the
encoder rejects with `TypeError`, so no report is written at all and no
round trip can happen. -/
theorem report_not_serializable (records : List (Str × TaskMetrics))
    (h : records ≠ []) :
    reportSerializable (reportDict records) = false := by
  cases records with
  | nil => exact absurd rfl h
  | cons r t => simp [reportSerializable, reportDict, leafSerializable]

/-- C2 witness: a singleton batch already fails to serialize. -/
theorem report_not_serializable_check :
    (([("a".data, TaskMetrics.mk 0 0 0 0 0 0 [])]) : List (Str × TaskMetrics)) ≠ [] ∧
    reportSerializable (reportDict [("a".data, TaskMetrics.mk 0 0 0 0 0 0 [])]) = false :=
  ⟨by simp, report_not_serializable _ (by simp)⟩

end CollectMetrics
